import Mathlib

/-!
Verification of the RubyBridgeHelpers C shim (`rbb_helpers.h`).

The repository sources contain the header only; the implementation file that
realises the protected-call pattern and the handle box is not among the
sources, so those behaviours are modelled from the specification, as noted on
each definition.  Machine values (`VALUE`, `ID`) are address-sized handles the
layer never interprets, so they are embedded as natural numbers.
-/

namespace RbbHelpers

/-- Address-sized reference produced and consumed by the embedded VM
(`VALUE` in the header); this layer never interprets its bits. -/
abbrev VALUE := Nat

/-- Interned symbol identifier (`ID` in the header): a small integer handle. -/
abbrev ID := Nat

/-- Raw bit pattern of a C `double`.  The adapter only passes doubles through,
never computing with them, so the payload stays uninterpreted bits. -/
structure Dbl where
  bits : Nat
  deriving DecidableEq

/-- Status flag written through the out-parameter of every protected call. -/
inductive Status where
  | notRaised
  | raised
  deriving DecidableEq

/-- Modelled from the spec: outcome of invoking a VM primitive — either it
completes normally with a result, or it triggers the VM's exception
mechanism (a non-local jump). -/
inductive PrimOutcome (α : Type) where
  | normal (v : α)
  | jump
  deriving DecidableEq

/-- How a call into the adapter terminates, seen from the caller's native
frame: a conventional return carrying the result and the final contents of
the (possibly absent) status slot, or a non-local jump escaping into the
caller's frame. -/
inductive CallExit (α : Type) where
  | ret (v : α) (slot : Option Status)
  | escape
  deriving DecidableEq

/-- Write a status value through the nullable status out-parameter: a null
slot (`none`) means the caller passed no flag, and the write is skipped. -/
def statusWrite (slot : Option Status) (s : Status) : Option Status :=
  match slot with
  | none => none
  | some _ => some s

/-- Modelled from the spec: the guarded region of a protected call (the
implementation file wrapping each primitive is not among the sources).  The
primitive runs inside a region that establishes a jump target: normal
completion returns the true result and writes notRaised; a triggered
exception mechanism is intercepted at the boundary, raised is written, and a
defined zero sentinel is returned.  No jump escapes into the caller. -/
def guardedCall {α : Type} (sentinel : α) (out : PrimOutcome α) (slot : Option Status) :
    CallExit α :=
  match out with
  | .normal v => .ret v (statusWrite slot Status.notRaised)
  | .jump => .ret sentinel (statusWrite slot Status.raised)

/-- Value returned to the caller, when the call returned at all. -/
def CallExit.retVal? {α : Type} : CallExit α → Option α
  | .ret v _ => some v
  | .escape => none

/-- Final contents of the status slot after the call, when the call returned. -/
def CallExit.slotAfter {α : Type} : CallExit α → Option Status
  | .ret _ w => w
  | .escape => none

/-- Modelled from the spec: the black-box VM primitives wrapped by the
adapter, whose behaviour the specification leaves to the VM (the C file
calling `rb_load`, `rb_inspect`, `rb_funcallv`, `rb_cvar_get`, `rb_String`
and the numeric coercions is not among the sources).  Each primitive is
abstracted as a function from its arguments to an outcome. -/
structure VMPrim where
  rb_load : VALUE → Int → PrimOutcome Unit
  rb_inspect : VALUE → PrimOutcome VALUE
  rb_funcallv : VALUE → ID → List VALUE → PrimOutcome VALUE
  rb_cvar_get : VALUE → ID → PrimOutcome VALUE
  rb_String : VALUE → PrimOutcome VALUE
  rb_num2ulong : VALUE → PrimOutcome Int
  rb_num2long : VALUE → PrimOutcome Int
  rb_num2dbl : VALUE → PrimOutcome Dbl

/-- Safely call `rb_load` and report exception status (header line 30). -/
def rbb_load_protect (vm : VMPrim) (fname : VALUE) (wrap : Int) (slot : Option Status) :
    CallExit Unit :=
  guardedCall () (vm.rb_load fname wrap) slot

/-- Safely call `rb_inspect` and report exception status (header line 42). -/
def rbb_inspect_protect (vm : VMPrim) (value : VALUE) (slot : Option Status) :
    CallExit VALUE :=
  guardedCall 0 (vm.rb_inspect value) slot

/-- Safely call `rb_funcallv` and report exception status (header lines
44-47).  The C `argc`/`argv` pair is embedded as a single list. -/
def rbb_funcallv_protect (vm : VMPrim) (value : VALUE) (id : ID) (argv : List VALUE)
    (slot : Option Status) : CallExit VALUE :=
  guardedCall 0 (vm.rb_funcallv value id argv) slot

/-- Safely call `rb_cvar_get` and report exception status (header line 50). -/
def rbb_cvar_get_protect (vm : VMPrim) (clazz : VALUE) (id : ID) (slot : Option Status) :
    CallExit VALUE :=
  guardedCall 0 (vm.rb_cvar_get clazz id) slot

/-- Safely call `rb_String` and report exception status (header line 56). -/
def rbb_String_protect (vm : VMPrim) (v : VALUE) (slot : Option Status) :
    CallExit VALUE :=
  guardedCall 0 (vm.rb_String v) slot

/-- Modelled from the spec: the computation guarded by the unsigned coercion:
first the underlying coercion `rb_num2ulong(rb_Integer v)`, then — only after
it succeeds — the adapter raises if the numeric value is negative (header
lines 62-64), so a negative value never silently wraps. -/
def obj2ulongChecked (coerced : PrimOutcome Int) : PrimOutcome Nat :=
  match coerced with
  | .jump => .jump
  | .normal n => if n < 0 then .jump else .normal n.toNat

/-- Safely call `rb_num2ulong(rb_Integer)` and report exception status;
additionally raise if the number is negative (header lines 62-64). -/
def rbb_obj2ulong_protect (vm : VMPrim) (v : VALUE) (slot : Option Status) :
    CallExit Nat :=
  guardedCall 0 (obj2ulongChecked (vm.rb_num2ulong v)) slot

/-- Safely call `rb_num2long(rb_Integer)` and report exception status (header
line 67). -/
def rbb_obj2long_protect (vm : VMPrim) (v : VALUE) (slot : Option Status) :
    CallExit Int :=
  guardedCall 0 (vm.rb_num2long v) slot

/-- Safely call `rb_num2dbl(rb_Float)` and report exception status (header
line 70). -/
def rbb_obj2double_protect (vm : VMPrim) (v : VALUE) (slot : Option Status) :
    CallExit Dbl :=
  guardedCall ⟨0⟩ (vm.rb_num2dbl v) slot

/-- Modelled from the spec: the VM symbol intern table — already-interned
names in interning order (a name's position is its symbol identifier, a
process-stable small integer), plus a table capacity past which interning a
fresh name triggers the VM's exception path. -/
structure SymTab where
  syms : List String
  cap : Nat
  deriving DecidableEq

/-- Position of the first occurrence of a name in the intern table. -/
def idxOf? : List String → String → Option Nat
  | [], _ => none
  | x :: xs, n => if x = n then some 0 else (idxOf? xs n).map (fun k => k + 1)

/-- Modelled from the spec: the `rb_intern` primitive — return the existing
identifier of an already-interned name, else append the name (its identifier
is its new position), or trigger the exception path when the table is full. -/
def rb_intern (t : SymTab) (name : String) : SymTab × PrimOutcome ID :=
  match idxOf? t.syms name with
  | some i => (t, .normal i)
  | none =>
    if t.syms.length < t.cap then
      (⟨t.syms ++ [name], t.cap⟩, .normal t.syms.length)
    else (t, .jump)

/-- Safely call `rb_intern` and report exception status (header line 33). -/
def rbb_intern_protect (t : SymTab) (name : String) (slot : Option Status) :
    SymTab × CallExit ID :=
  ((rb_intern t name).1, guardedCall 0 (rb_intern t name).2 slot)

/-- Intern a whole list of names in order, keeping only the table. -/
def internMany (t : SymTab) (names : List String) : SymTab :=
  names.foldl (fun acc n => (rb_intern acc n).1) t

/-- Modelled from the spec: the VM constant tables — constants directly
defined on a namespace, and each namespace's ancestor edge. -/
structure ConstEnv where
  consts : List (VALUE × ID × VALUE)
  parents : List (VALUE × VALUE)
  deriving DecidableEq

/-- Constant directly defined on the given namespace, if any. -/
def constLookupAt (env : ConstEnv) (ns : VALUE) (id : ID) : Option VALUE :=
  (env.consts.find? (fun e => e.1 == ns && e.2.1 == id)).map (fun e => e.2.2)

/-- Ancestor edge of a namespace, if any. -/
def parentOf (env : ConstEnv) (ns : VALUE) : Option VALUE :=
  (env.parents.find? (fun e => e.1 == ns)).map (fun e => e.2)

/-- Walk the ancestor chain looking for the constant, with fuel bounding the
walk by the number of ancestor edges. -/
def constLookupWalk : Nat → ConstEnv → VALUE → ID → Option VALUE
  | 0, _, _, _ => none
  | fuel + 1, env, ns, id =>
    match constLookupAt env ns id with
    | some v => some v
    | none =>
      match parentOf env ns with
      | some p => constLookupWalk fuel env p id
      | none => none

/-- Ancestor-aware constant lookup. -/
def constLookupAncestors (env : ConstEnv) (ns : VALUE) (id : ID) : Option VALUE :=
  constLookupWalk (env.parents.length + 1) env ns id

/-- Modelled from the spec: the direct-lookup constant primitive — find the
constant directly on the namespace or trigger the exception path. -/
def constGetDirect (env : ConstEnv) (ns : VALUE) (id : ID) : PrimOutcome VALUE :=
  match constLookupAt env ns id with
  | some v => .normal v
  | none => .jump

/-- Modelled from the spec: the ancestor-aware constant primitive — find the
constant on the namespace or one of its ancestors, else trigger the
exception path. -/
def constGetAncestors (env : ConstEnv) (ns : VALUE) (id : ID) : PrimOutcome VALUE :=
  match constLookupAncestors env ns id with
  | some v => .normal v
  | none => .jump

/-- Safely fetch a constant with the direct lookup and report exception
status (header line 36; the spec lists the direct variant first, matching
the header's declaration order). -/
def rbb_const_get_protect (env : ConstEnv) (value : VALUE) (id : ID)
    (slot : Option Status) : CallExit VALUE :=
  guardedCall 0 (constGetDirect env value id) slot

/-- Safely fetch a constant with the ancestor-aware lookup and report
exception status (header line 39). -/
def rbb_const_get_at_protect (env : ConstEnv) (value : VALUE) (id : ID)
    (slot : Option Status) : CallExit VALUE :=
  guardedCall 0 (constGetAncestors env value id) slot

/-- First association of a key in a key-value list. -/
def assoc? {β : Type} : List (Nat × β) → Nat → Option β
  | [], _ => none
  | e :: es, k => if e.1 = k then some e.2 else assoc? es k

/-- Remove every association of a key from a key-value list. -/
def removeKey {β : Type} : List (Nat × β) → Nat → List (Nat × β)
  | [], _ => []
  | e :: es, k => if e.1 = k then removeKey es k else e :: removeKey es k

/-- Modelled from the spec: the heap of live handle boxes (`Rbb_value` in the
header holds one `VALUE`).  Each live box is a pair of its address (a fresh
identifier) and the stored reference; presence in the heap means the box's
own root registration with the VM's collector is in place, since allocation
registers and release unregisters, one registration per box. -/
structure BoxHeap where
  boxes : List (Nat × VALUE)
  next : Nat
  deriving DecidableEq

/-- Stored reference of a live box, if the box is live. -/
def boxValue? (h : BoxHeap) (b : Nat) : Option VALUE :=
  assoc? h.boxes b

/-- Modelled from the spec: allocate a box at a fresh address, store the
given reference in it and register that reference as a collector root
(header line 81). -/
def rbb_value_alloc (h : BoxHeap) (v : VALUE) : BoxHeap × Nat :=
  (⟨(h.next, v) :: h.boxes, h.next + 1⟩, h.next)

/-- Modelled from the spec: duplicate a box — allocate a second, independent
box holding a copy of the same reference, with its own root registration;
the source box is read only (header line 82). -/
def rbb_value_dup (h : BoxHeap) (b : Nat) : Option (BoxHeap × Nat) :=
  (boxValue? h b).map (fun v => rbb_value_alloc h v)

/-- Modelled from the spec: release a box — unregister its reference from the
collector's roots and free the box (header line 83).  Releasing a box that
is not live is the undefined misuse case, embedded as `none`. -/
def rbb_value_free (h : BoxHeap) (b : Nat) : Option BoxHeap :=
  if (assoc? h.boxes b).isSome then
    some ⟨removeKey h.boxes b, h.next⟩
  else none

/-- Root registrations a key-value list contributes for one reference. -/
def rootsIn : List (Nat × VALUE) → VALUE → Nat
  | [], _ => 0
  | e :: es, v => (if e.2 = v then 1 else 0) + rootsIn es v

/-- Number of live root registrations for a reference: one per live box
holding it. -/
def rootCount (h : BoxHeap) (v : VALUE) : Nat :=
  rootsIn h.boxes v

/-- Addresses of the live boxes. -/
def BoxHeap.keys (h : BoxHeap) : List Nat :=
  h.boxes.map (fun e => e.1)

/-- Heap well-formedness: every live address is below the allocation bound,
and no two live boxes share an address. -/
def BoxHeap.WF (h : BoxHeap) : Prop :=
  (∀ e ∈ h.boxes, e.1 < h.next) ∧ h.keys.Nodup

instance (h : BoxHeap) : Decidable h.WF := by
  unfold BoxHeap.WF
  infer_instance

/-- Modelled from the spec: a VM object as far as the auxiliary reads see it:
a string object carrying its bytes, or any other object carrying its
built-in type tag. -/
inductive RbObj where
  | rstring (bytes : List Nat)
  | robj (tag : Nat)
  deriving DecidableEq

/-- Built-in runtime type tag of an object (strings carry the VM's string
tag, 5). -/
def RbObj.tag : RbObj → Nat
  | .rstring _ => 5
  | .robj t => t

/-- Modelled from the spec: the VM object table mapping a reference to the
object it denotes. -/
structure ObjTab where
  objs : List (VALUE × RbObj)
  deriving DecidableEq

/-- Object denoted by a reference, if any. -/
def objAt? (tab : ObjTab) (v : VALUE) : Option RbObj :=
  assoc? tab.objs v

/-- Wrap up `RB_BUILTIN_TYPE`: classify a reference's built-in runtime type
tag (header line 53), a pure read. -/
def rbb_RB_BUILTIN_TYPE (tab : ObjTab) (v : VALUE) : Nat :=
  match objAt? tab v with
  | some o => o.tag
  | none => 0

/-- Bytes of a string-typed reference. -/
def stringBytes (tab : ObjTab) (v : VALUE) : List Nat :=
  match objAt? tab v with
  | some (.rstring bs) => bs
  | _ => []

/-- Byte length of a string-typed reference (header line 59), a pure read. -/
def rbb_RSTRING_LEN (tab : ObjTab) (v : VALUE) : Int :=
  (stringBytes tab v).length

/-- Raw bytes of a string-typed reference: the non-owning pointer is embedded
as the byte view it points at (header line 60), a pure read. -/
def rbb_RSTRING_PTR (tab : ObjTab) (v : VALUE) : List Nat :=
  stringBytes tab v

/-- Modelled from the spec: the process-run-constant description of the
embedded VM: its version and build-description byte strings. -/
structure RubyInfo where
  version : List Nat
  description : List Nat
  deriving DecidableEq

/-- Well-formed run info: both strings non-empty and free of null bytes. -/
def RubyInfo.WF (i : RubyInfo) : Prop :=
  i.version ≠ [] ∧ 0 ∉ i.version ∧ i.description ≠ [] ∧ 0 ∉ i.description

instance (i : RubyInfo) : Decidable i.WF := by
  unfold RubyInfo.WF
  infer_instance

/-- Version string of the embedded VM (header line 73), a pure read. -/
def rbb_ruby_version (info : RubyInfo) : List Nat :=
  info.version

/-- Build-description string of the embedded VM (header line 74), a pure
read. -/
def rbb_ruby_description (info : RubyInfo) : List Nat :=
  info.description

/-- One auxiliary, non-protected operation together with its argument. -/
inductive AuxOp where
  | builtinType (v : VALUE)
  | rstringLen (v : VALUE)
  | rstringPtr (v : VALUE)
  | rubyVersion
  | rubyDescription
  deriving DecidableEq

/-- Result of an auxiliary operation. -/
inductive AuxResult where
  | tagR (t : Nat)
  | lenR (n : Int)
  | bytesR (bs : List Nat)
  deriving DecidableEq

/-- Evaluate an auxiliary operation: a pure read of the object table and the
run info. -/
def auxEval (tab : ObjTab) (info : RubyInfo) : AuxOp → AuxResult
  | .builtinType v => .tagR (rbb_RB_BUILTIN_TYPE tab v)
  | .rstringLen v => .lenR (rbb_RSTRING_LEN tab v)
  | .rstringPtr v => .bytesR (rbb_RSTRING_PTR tab v)
  | .rubyVersion => .bytesR (rbb_ruby_version info)
  | .rubyDescription => .bytesR (rbb_ruby_description info)

/-- An auxiliary call as the caller's frame sees it: the operation is invoked
with no guard and no status slot, and its result is returned. -/
def auxCall (tab : ObjTab) (info : RubyInfo) (op : AuxOp) : CallExit AuxResult :=
  match PrimOutcome.normal (auxEval tab info op) with
  | .normal r => .ret r none
  | .jump => .escape

/-- Mutable adapter-side state in this model: the intern table and the box
heap.  Auxiliary operations get the whole state to show they touch none of
it. -/
structure AdapterState where
  symtab : SymTab
  heap : BoxHeap
  deriving DecidableEq

/-- Step an auxiliary operation over the adapter state: the read happens and
the state passes through. -/
def stepAux (st : AdapterState) (tab : ObjTab) (info : RubyInfo) (op : AuxOp) :
    AdapterState × CallExit AuxResult :=
  (st, auxCall tab info op)

/-- No live box stores the null reference. -/
def nullFree (h : BoxHeap) : Prop :=
  ∀ e ∈ h.boxes, e.2 ≠ 0

instance (h : BoxHeap) : Decidable (nullFree h) := by
  unfold nullFree
  infer_instance

/-- A concrete VM-primitive behaviour used to exercise the adapter: each
primitive jumps on a zero-flavoured input and completes normally
otherwise. -/
def vmW : VMPrim :=
  ⟨fun _ w => if w = 0 then .normal () else .jump,
   fun v => if v = 0 then .jump else .normal (v + 1),
   fun v _ args => if v = 0 then .jump else .normal (v + args.length),
   fun c _ => if c = 0 then .jump else .normal c,
   fun v => if v = 0 then .jump else .normal v,
   fun v => if v = 0 then .jump else .normal (Int.ofNat v - 2),
   fun v => if v = 0 then .jump else .normal (Int.ofNat v),
   fun v => if v = 0 then .jump else .normal ⟨v⟩⟩

/-- A concrete constant environment: constant 7 is defined only on namespace
20, the ancestor of namespace 10. -/
def envC5 : ConstEnv :=
  ⟨[(20, 7, 42)], [(10, 20)]⟩

theorem guardedCall_ne_escape {α : Type} (sn : α) (out : PrimOutcome α)
    (slot : Option Status) : guardedCall sn out slot ≠ CallExit.escape := by
  cases out <;> simp [guardedCall]

theorem guardedCall_retVal_slot {α : Type} (sn : α) (out : PrimOutcome α)
    (s1 s2 : Option Status) :
    (guardedCall sn out s1).retVal? = (guardedCall sn out s2).retVal? := by
  cases out <;> rfl

theorem guardedCall_slotAfter_none {α : Type} (sn : α) (out : PrimOutcome α) :
    (guardedCall sn out none).slotAfter = none := by
  cases out <;> rfl

/-- C1: every protected operation runs its primitive inside the guarded
region: normal completion writes notRaised and returns the primitive's true
result; a triggered exception mechanism is intercepted, raised is written,
and the zero sentinel is returned, with no jump escaping into the caller's
frame. -/
theorem c1_protected_call_contract :
    (∀ (vm : VMPrim) (fname : VALUE) (wrap : Int) (slot : Option Status),
      (∀ u, vm.rb_load fname wrap = .normal u →
        rbb_load_protect vm fname wrap slot = .ret u (statusWrite slot Status.notRaised)) ∧
      (vm.rb_load fname wrap = .jump →
        rbb_load_protect vm fname wrap slot = .ret () (statusWrite slot Status.raised)) ∧
      rbb_load_protect vm fname wrap slot ≠ .escape) ∧
    (∀ (t : SymTab) (name : String) (slot : Option Status),
      (∀ t1 i, rb_intern t name = (t1, .normal i) →
        rbb_intern_protect t name slot = (t1, .ret i (statusWrite slot Status.notRaised))) ∧
      (∀ t1, rb_intern t name = (t1, .jump) →
        rbb_intern_protect t name slot = (t1, .ret 0 (statusWrite slot Status.raised))) ∧
      (rbb_intern_protect t name slot).2 ≠ .escape) ∧
    (∀ (env : ConstEnv) (value : VALUE) (id : ID) (slot : Option Status),
      (∀ v, constGetDirect env value id = .normal v →
        rbb_const_get_protect env value id slot = .ret v (statusWrite slot Status.notRaised)) ∧
      (constGetDirect env value id = .jump →
        rbb_const_get_protect env value id slot = .ret 0 (statusWrite slot Status.raised)) ∧
      rbb_const_get_protect env value id slot ≠ .escape) ∧
    (∀ (env : ConstEnv) (value : VALUE) (id : ID) (slot : Option Status),
      (∀ v, constGetAncestors env value id = .normal v →
        rbb_const_get_at_protect env value id slot = .ret v (statusWrite slot Status.notRaised)) ∧
      (constGetAncestors env value id = .jump →
        rbb_const_get_at_protect env value id slot = .ret 0 (statusWrite slot Status.raised)) ∧
      rbb_const_get_at_protect env value id slot ≠ .escape) ∧
    (∀ (vm : VMPrim) (value : VALUE) (slot : Option Status),
      (∀ r, vm.rb_inspect value = .normal r →
        rbb_inspect_protect vm value slot = .ret r (statusWrite slot Status.notRaised)) ∧
      (vm.rb_inspect value = .jump →
        rbb_inspect_protect vm value slot = .ret 0 (statusWrite slot Status.raised)) ∧
      rbb_inspect_protect vm value slot ≠ .escape) ∧
    (∀ (vm : VMPrim) (value : VALUE) (id : ID) (argv : List VALUE) (slot : Option Status),
      (∀ r, vm.rb_funcallv value id argv = .normal r →
        rbb_funcallv_protect vm value id argv slot = .ret r (statusWrite slot Status.notRaised)) ∧
      (vm.rb_funcallv value id argv = .jump →
        rbb_funcallv_protect vm value id argv slot = .ret 0 (statusWrite slot Status.raised)) ∧
      rbb_funcallv_protect vm value id argv slot ≠ .escape) ∧
    (∀ (vm : VMPrim) (clazz : VALUE) (id : ID) (slot : Option Status),
      (∀ r, vm.rb_cvar_get clazz id = .normal r →
        rbb_cvar_get_protect vm clazz id slot = .ret r (statusWrite slot Status.notRaised)) ∧
      (vm.rb_cvar_get clazz id = .jump →
        rbb_cvar_get_protect vm clazz id slot = .ret 0 (statusWrite slot Status.raised)) ∧
      rbb_cvar_get_protect vm clazz id slot ≠ .escape) ∧
    (∀ (vm : VMPrim) (v : VALUE) (slot : Option Status),
      (∀ r, vm.rb_String v = .normal r →
        rbb_String_protect vm v slot = .ret r (statusWrite slot Status.notRaised)) ∧
      (vm.rb_String v = .jump →
        rbb_String_protect vm v slot = .ret 0 (statusWrite slot Status.raised)) ∧
      rbb_String_protect vm v slot ≠ .escape) ∧
    (∀ (vm : VMPrim) (v : VALUE) (slot : Option Status),
      (∀ m, obj2ulongChecked (vm.rb_num2ulong v) = .normal m →
        rbb_obj2ulong_protect vm v slot = .ret m (statusWrite slot Status.notRaised)) ∧
      (obj2ulongChecked (vm.rb_num2ulong v) = .jump →
        rbb_obj2ulong_protect vm v slot = .ret 0 (statusWrite slot Status.raised)) ∧
      rbb_obj2ulong_protect vm v slot ≠ .escape) ∧
    (∀ (vm : VMPrim) (v : VALUE) (slot : Option Status),
      (∀ n, vm.rb_num2long v = .normal n →
        rbb_obj2long_protect vm v slot = .ret n (statusWrite slot Status.notRaised)) ∧
      (vm.rb_num2long v = .jump →
        rbb_obj2long_protect vm v slot = .ret 0 (statusWrite slot Status.raised)) ∧
      rbb_obj2long_protect vm v slot ≠ .escape) ∧
    (∀ (vm : VMPrim) (v : VALUE) (slot : Option Status),
      (∀ d, vm.rb_num2dbl v = .normal d →
        rbb_obj2double_protect vm v slot = .ret d (statusWrite slot Status.notRaised)) ∧
      (vm.rb_num2dbl v = .jump →
        rbb_obj2double_protect vm v slot = .ret ⟨0⟩ (statusWrite slot Status.raised)) ∧
      rbb_obj2double_protect vm v slot ≠ .escape) := by
  refine ⟨?_, ?_, ?_, ?_, ?_, ?_, ?_, ?_, ?_, ?_, ?_⟩
  · intro vm fname wrap slot
    refine ⟨fun u h => ?_, fun h => ?_, guardedCall_ne_escape _ _ _⟩
    · simp [rbb_load_protect, h, guardedCall]
    · simp [rbb_load_protect, h, guardedCall]
  · intro t name slot
    refine ⟨fun t1 i h => ?_, fun t1 h => ?_, guardedCall_ne_escape _ _ _⟩
    · simp [rbb_intern_protect, h, guardedCall]
    · simp [rbb_intern_protect, h, guardedCall]
  · intro env value id slot
    refine ⟨fun v h => ?_, fun h => ?_, guardedCall_ne_escape _ _ _⟩
    · simp [rbb_const_get_protect, h, guardedCall]
    · simp [rbb_const_get_protect, h, guardedCall]
  · intro env value id slot
    refine ⟨fun v h => ?_, fun h => ?_, guardedCall_ne_escape _ _ _⟩
    · simp [rbb_const_get_at_protect, h, guardedCall]
    · simp [rbb_const_get_at_protect, h, guardedCall]
  · intro vm value slot
    refine ⟨fun r h => ?_, fun h => ?_, guardedCall_ne_escape _ _ _⟩
    · simp [rbb_inspect_protect, h, guardedCall]
    · simp [rbb_inspect_protect, h, guardedCall]
  · intro vm value id argv slot
    refine ⟨fun r h => ?_, fun h => ?_, guardedCall_ne_escape _ _ _⟩
    · simp [rbb_funcallv_protect, h, guardedCall]
    · simp [rbb_funcallv_protect, h, guardedCall]
  · intro vm clazz id slot
    refine ⟨fun r h => ?_, fun h => ?_, guardedCall_ne_escape _ _ _⟩
    · simp [rbb_cvar_get_protect, h, guardedCall]
    · simp [rbb_cvar_get_protect, h, guardedCall]
  · intro vm v slot
    refine ⟨fun r h => ?_, fun h => ?_, guardedCall_ne_escape _ _ _⟩
    · simp [rbb_String_protect, h, guardedCall]
    · simp [rbb_String_protect, h, guardedCall]
  · intro vm v slot
    refine ⟨fun m h => ?_, fun h => ?_, guardedCall_ne_escape _ _ _⟩
    · simp [rbb_obj2ulong_protect, h, guardedCall]
    · simp [rbb_obj2ulong_protect, h, guardedCall]
  · intro vm v slot
    refine ⟨fun n h => ?_, fun h => ?_, guardedCall_ne_escape _ _ _⟩
    · simp [rbb_obj2long_protect, h, guardedCall]
    · simp [rbb_obj2long_protect, h, guardedCall]
  · intro vm v slot
    refine ⟨fun d h => ?_, fun h => ?_, guardedCall_ne_escape _ _ _⟩
    · simp [rbb_obj2double_protect, h, guardedCall]
    · simp [rbb_obj2double_protect, h, guardedCall]

/-- Witness for C1 at the concrete behaviour vmW: a normal load completes
with notRaised, a funcallv on the jumping input is intercepted with raised
and the zero sentinel, and likewise a jumping double coercion. -/
theorem c1_protected_call_contract_witness :
    rbb_load_protect vmW 3 0 (some Status.raised) = .ret () (some Status.notRaised) ∧
    rbb_funcallv_protect vmW 0 1 [2, 3] none = .ret 0 none ∧
    rbb_obj2double_protect vmW 0 (some Status.notRaised) = .ret ⟨0⟩ (some Status.raised) := by
  have h := c1_protected_call_contract
  refine ⟨?_, ?_, ?_⟩
  · exact (h.1 vmW 3 0 (some Status.raised)).1 () (by decide)
  · exact (h.2.2.2.2.2.1 vmW 0 1 [2, 3] none).2.1 (by decide)
  · exact (h.2.2.2.2.2.2.2.2.2.2 vmW 0 (some Status.notRaised)).2.1 (by decide)

/-- C2: once the underlying numeric coercion succeeds with a value, the
unsigned-coercion wrapper raises exactly on negative values — returning the
zero sentinel rather than a wrapped-around magnitude — and returns the
correct magnitude with notRaised on non-negative values. -/
theorem c2_obj2ulong_negative_check :
    ∀ (vm : VMPrim) (v : VALUE) (slot : Option Status) (n : Int),
      vm.rb_num2ulong v = .normal n →
        (n < 0 → rbb_obj2ulong_protect vm v slot = .ret 0 (statusWrite slot Status.raised)) ∧
        (0 ≤ n → rbb_obj2ulong_protect vm v slot =
          .ret n.toNat (statusWrite slot Status.notRaised)) := by
  intro vm v slot n h
  constructor
  · intro hneg
    simp [rbb_obj2ulong_protect, h, obj2ulongChecked, hneg, guardedCall]
  · intro hpos
    have hn : ¬n < 0 := not_lt.mpr hpos
    simp [rbb_obj2ulong_protect, h, obj2ulongChecked, hn, guardedCall]

/-- Witness for C2 at vmW: input 1 coerces to the negative value -1 and the
wrapper raises with the zero sentinel; input 5 coerces to 3 and the wrapper
returns the magnitude 3 with notRaised. -/
theorem c2_obj2ulong_negative_check_witness :
    rbb_obj2ulong_protect vmW 1 (some Status.notRaised) = .ret 0 (some Status.raised) ∧
    rbb_obj2ulong_protect vmW 5 none = .ret 3 none := by
  constructor
  · exact (c2_obj2ulong_negative_check vmW 1 (some Status.notRaised) (-1) (by decide)).1
      (by decide)
  · exact (c2_obj2ulong_negative_check vmW 5 none 3 (by decide)).2 (by decide)

/-- C7: every protected operation accepts a null status slot: the returned
value is the one returned with a non-null slot, no status is written, and
the call still returns normally. -/
theorem c7_nullable_status_slot :
    (∀ (vm : VMPrim) (fname : VALUE) (wrap : Int) (s : Status),
      (rbb_load_protect vm fname wrap none).retVal? =
        (rbb_load_protect vm fname wrap (some s)).retVal? ∧
      (rbb_load_protect vm fname wrap none).slotAfter = none ∧
      rbb_load_protect vm fname wrap none ≠ .escape) ∧
    (∀ (t : SymTab) (name : String) (s : Status),
      (rbb_intern_protect t name none).1 = (rbb_intern_protect t name (some s)).1 ∧
      ((rbb_intern_protect t name none).2).retVal? =
        ((rbb_intern_protect t name (some s)).2).retVal? ∧
      ((rbb_intern_protect t name none).2).slotAfter = none ∧
      (rbb_intern_protect t name none).2 ≠ .escape) ∧
    (∀ (env : ConstEnv) (value : VALUE) (id : ID) (s : Status),
      (rbb_const_get_protect env value id none).retVal? =
        (rbb_const_get_protect env value id (some s)).retVal? ∧
      (rbb_const_get_protect env value id none).slotAfter = none ∧
      rbb_const_get_protect env value id none ≠ .escape) ∧
    (∀ (env : ConstEnv) (value : VALUE) (id : ID) (s : Status),
      (rbb_const_get_at_protect env value id none).retVal? =
        (rbb_const_get_at_protect env value id (some s)).retVal? ∧
      (rbb_const_get_at_protect env value id none).slotAfter = none ∧
      rbb_const_get_at_protect env value id none ≠ .escape) ∧
    (∀ (vm : VMPrim) (value : VALUE) (s : Status),
      (rbb_inspect_protect vm value none).retVal? =
        (rbb_inspect_protect vm value (some s)).retVal? ∧
      (rbb_inspect_protect vm value none).slotAfter = none ∧
      rbb_inspect_protect vm value none ≠ .escape) ∧
    (∀ (vm : VMPrim) (value : VALUE) (id : ID) (argv : List VALUE) (s : Status),
      (rbb_funcallv_protect vm value id argv none).retVal? =
        (rbb_funcallv_protect vm value id argv (some s)).retVal? ∧
      (rbb_funcallv_protect vm value id argv none).slotAfter = none ∧
      rbb_funcallv_protect vm value id argv none ≠ .escape) ∧
    (∀ (vm : VMPrim) (clazz : VALUE) (id : ID) (s : Status),
      (rbb_cvar_get_protect vm clazz id none).retVal? =
        (rbb_cvar_get_protect vm clazz id (some s)).retVal? ∧
      (rbb_cvar_get_protect vm clazz id none).slotAfter = none ∧
      rbb_cvar_get_protect vm clazz id none ≠ .escape) ∧
    (∀ (vm : VMPrim) (v : VALUE) (s : Status),
      (rbb_String_protect vm v none).retVal? =
        (rbb_String_protect vm v (some s)).retVal? ∧
      (rbb_String_protect vm v none).slotAfter = none ∧
      rbb_String_protect vm v none ≠ .escape) ∧
    (∀ (vm : VMPrim) (v : VALUE) (s : Status),
      (rbb_obj2ulong_protect vm v none).retVal? =
        (rbb_obj2ulong_protect vm v (some s)).retVal? ∧
      (rbb_obj2ulong_protect vm v none).slotAfter = none ∧
      rbb_obj2ulong_protect vm v none ≠ .escape) ∧
    (∀ (vm : VMPrim) (v : VALUE) (s : Status),
      (rbb_obj2long_protect vm v none).retVal? =
        (rbb_obj2long_protect vm v (some s)).retVal? ∧
      (rbb_obj2long_protect vm v none).slotAfter = none ∧
      rbb_obj2long_protect vm v none ≠ .escape) ∧
    (∀ (vm : VMPrim) (v : VALUE) (s : Status),
      (rbb_obj2double_protect vm v none).retVal? =
        (rbb_obj2double_protect vm v (some s)).retVal? ∧
      (rbb_obj2double_protect vm v none).slotAfter = none ∧
      rbb_obj2double_protect vm v none ≠ .escape) := by
  refine ⟨?_, ?_, ?_, ?_, ?_, ?_, ?_, ?_, ?_, ?_, ?_⟩
  · intro vm fname wrap s
    exact ⟨guardedCall_retVal_slot _ _ _ _, guardedCall_slotAfter_none _ _,
      guardedCall_ne_escape _ _ _⟩
  · intro t name s
    exact ⟨rfl, guardedCall_retVal_slot _ _ _ _, guardedCall_slotAfter_none _ _,
      guardedCall_ne_escape _ _ _⟩
  · intro env value id s
    exact ⟨guardedCall_retVal_slot _ _ _ _, guardedCall_slotAfter_none _ _,
      guardedCall_ne_escape _ _ _⟩
  · intro env value id s
    exact ⟨guardedCall_retVal_slot _ _ _ _, guardedCall_slotAfter_none _ _,
      guardedCall_ne_escape _ _ _⟩
  · intro vm value s
    exact ⟨guardedCall_retVal_slot _ _ _ _, guardedCall_slotAfter_none _ _,
      guardedCall_ne_escape _ _ _⟩
  · intro vm value id argv s
    exact ⟨guardedCall_retVal_slot _ _ _ _, guardedCall_slotAfter_none _ _,
      guardedCall_ne_escape _ _ _⟩
  · intro vm clazz id s
    exact ⟨guardedCall_retVal_slot _ _ _ _, guardedCall_slotAfter_none _ _,
      guardedCall_ne_escape _ _ _⟩
  · intro vm v s
    exact ⟨guardedCall_retVal_slot _ _ _ _, guardedCall_slotAfter_none _ _,
      guardedCall_ne_escape _ _ _⟩
  · intro vm v s
    exact ⟨guardedCall_retVal_slot _ _ _ _, guardedCall_slotAfter_none _ _,
      guardedCall_ne_escape _ _ _⟩
  · intro vm v s
    exact ⟨guardedCall_retVal_slot _ _ _ _, guardedCall_slotAfter_none _ _,
      guardedCall_ne_escape _ _ _⟩
  · intro vm v s
    exact ⟨guardedCall_retVal_slot _ _ _ _, guardedCall_slotAfter_none _ _,
      guardedCall_ne_escape _ _ _⟩

theorem idxOf?_append_of_some {l : List String} {n : String} {i : Nat}
    (h : idxOf? l n = some i) (m : String) : idxOf? (l ++ [m]) n = some i := by
  induction l generalizing i with
  | nil => simp [idxOf?] at h
  | cons x xs ih =>
    by_cases hx : x = n
    · simp only [List.cons_append, idxOf?, if_pos hx] at h ⊢
      exact h
    · simp only [List.cons_append, idxOf?, if_neg hx, List.append_eq] at h ⊢
      cases hj : idxOf? xs n with
      | none => rw [hj] at h; simp at h
      | some j =>
        rw [hj] at h
        rw [ih hj]
        exact h

theorem idxOf?_append_self {l : List String} {n : String} (h : idxOf? l n = none) :
    idxOf? (l ++ [n]) n = some l.length := by
  induction l with
  | nil => simp [idxOf?]
  | cons x xs ih =>
    by_cases hx : x = n
    · simp [idxOf?, hx] at h
    · simp only [idxOf?, if_neg hx, Option.map_eq_none'] at h
      simp only [List.cons_append, idxOf?, if_neg hx, List.append_eq, ih h]
      rfl

theorem rb_intern_idx {t : SymTab} {n : String} {i : Nat}
    (h : idxOf? t.syms n = some i) : rb_intern t n = (t, .normal i) := by
  simp [rb_intern, h]

theorem rb_intern_success_idx {t t1 : SymTab} {n : String} {i : Nat}
    (h : rb_intern t n = (t1, .normal i)) : idxOf? t1.syms n = some i := by
  unfold rb_intern at h
  cases hm : idxOf? t.syms n with
  | some j =>
    rw [hm] at h
    injection h with h1 h2
    injection h2 with h3
    subst h1
    subst h3
    exact hm
  | none =>
    rw [hm] at h
    by_cases hc : t.syms.length < t.cap
    · rw [if_pos hc] at h
      injection h with h1 h2
      injection h2 with h3
      subst h1
      subst h3
      exact idxOf?_append_self hm
    · rw [if_neg hc] at h
      injection h with h1 h2
      simp at h2

theorem idxOf?_intern_step {t : SymTab} {n : String} {i : Nat}
    (h : idxOf? t.syms n = some i) (m : String) :
    idxOf? ((rb_intern t m).1).syms n = some i := by
  unfold rb_intern
  cases hm : idxOf? t.syms m with
  | some j => simpa using h
  | none =>
    by_cases hc : t.syms.length < t.cap
    · simp only [if_pos hc]
      exact idxOf?_append_of_some h m
    · simp only [if_neg hc]
      exact h

theorem internMany_stable {t : SymTab} {n : String} {i : Nat}
    (h : idxOf? t.syms n = some i) (names : List String) :
    idxOf? (internMany t names).syms n = some i := by
  induction names generalizing t with
  | nil => simpa [internMany] using h
  | cons m ms ih =>
    simp only [internMany, List.foldl_cons]
    exact ih (idxOf?_intern_step h m)

/-- C6: once a name has been interned successfully, interning the same name
again completes with notRaised and the same symbol identifier, does not
change the table, and the mapping stays stable under any later interning
activity in the same process run. -/
theorem c6_intern_idempotent_stable :
    ∀ (t : SymTab) (name : String) (t1 : SymTab) (i : ID),
      rb_intern t name = (t1, .normal i) →
      (∀ slot, rbb_intern_protect t1 name slot =
        (t1, .ret i (statusWrite slot Status.notRaised))) ∧
      (∀ (names : List String) (slot : Option Status),
        rbb_intern_protect (internMany t1 names) name slot =
          (internMany t1 names, .ret i (statusWrite slot Status.notRaised))) := by
  intro t name t1 i h
  have hidx := rb_intern_success_idx h
  constructor
  · intro slot
    simp [rbb_intern_protect, rb_intern_idx hidx, guardedCall]
  · intro names slot
    simp [rbb_intern_protect, rb_intern_idx (internMany_stable hidx names), guardedCall]

/-- Witness for C6: interning "ab" into the empty two-slot table yields
identifier 0; interning it again — directly or after interning "cd" —
returns 0 again with notRaised and an unchanged table. -/
theorem c6_intern_idempotent_stable_witness :
    rbb_intern_protect ⟨["ab"], 2⟩ "ab" none = (⟨["ab"], 2⟩, .ret 0 none) ∧
    rbb_intern_protect (internMany ⟨["ab"], 2⟩ ["cd"]) "ab" (some Status.raised) =
      (internMany ⟨["ab"], 2⟩ ["cd"], .ret 0 (some Status.notRaised)) := by
  have h := c6_intern_idempotent_stable ⟨[], 2⟩ "ab" ⟨["ab"], 2⟩ 0 (by decide)
  exact ⟨h.1 none, h.2 ["cd"] (some Status.raised)⟩

/-- C5: the two constant-fetching operations have different lookup
semantics: in envC5 the constant is not defined directly on namespace 10 but
is defined on its ancestor 20, so the direct variant raises and returns the
sentinel while the ancestor-aware variant returns the constant with
notRaised — different outcomes on the same inputs. -/
theorem c5_const_get_variants_differ :
    constLookupAt envC5 10 7 = none ∧
    parentOf envC5 10 = some 20 ∧
    constLookupAt envC5 20 7 = some 42 ∧
    rbb_const_get_protect envC5 10 7 (some Status.raised) =
      .ret 0 (some Status.raised) ∧
    rbb_const_get_at_protect envC5 10 7 (some Status.raised) =
      .ret 42 (some Status.notRaised) := by
  decide

theorem assoc?_eq_none {β : Type} {l : List (Nat × β)} {k : Nat}
    (h : ∀ e ∈ l, e.1 ≠ k) : assoc? l k = none := by
  induction l with
  | nil => rfl
  | cons e es ih =>
    simp only [assoc?, if_neg (h e (List.mem_cons_self e es))]
    exact ih fun x hx => h x (List.mem_cons_of_mem e hx)

theorem removeKey_of_ne {β : Type} {l : List (Nat × β)} {k : Nat}
    (h : ∀ e ∈ l, e.1 ≠ k) : removeKey l k = l := by
  induction l with
  | nil => rfl
  | cons e es ih =>
    simp only [removeKey, if_neg (h e (List.mem_cons_self e es))]
    rw [ih fun x hx => h x (List.mem_cons_of_mem e hx)]

theorem assoc?_removeKey_ne {β : Type} {l : List (Nat × β)} {k b : Nat}
    (hne : b ≠ k) : assoc? (removeKey l k) b = assoc? l b := by
  induction l with
  | nil => rfl
  | cons e es ih =>
    by_cases hk : e.1 = k
    · have hb : e.1 ≠ b := fun hh => hne ((hh ▸ hk).symm ▸ rfl)
      simp only [removeKey, if_pos hk, assoc?, if_neg hb, ih]
    · simp only [removeKey, if_neg hk, assoc?]
      by_cases hb : e.1 = b
      · simp [if_pos hb]
      · simp [if_neg hb, ih]

theorem assoc?_mem {β : Type} {l : List (Nat × β)} {k : Nat} {v : β}
    (h : assoc? l k = some v) : (k, v) ∈ l := by
  induction l with
  | nil => simp [assoc?] at h
  | cons e es ih =>
    obtain ⟨e1, e2⟩ := e
    by_cases hk : e1 = k
    · simp only [assoc?, if_pos hk] at h
      injection h with h2
      subst hk
      subst h2
      exact List.mem_cons_self _ _
    · simp only [assoc?, if_neg hk] at h
      exact List.mem_cons_of_mem _ (ih h)

theorem removeKey_mem {β : Type} {l : List (Nat × β)} {k : Nat} {e : Nat × β}
    (h : e ∈ removeKey l k) : e ∈ l := by
  induction l with
  | nil => simp [removeKey] at h
  | cons x xs ih =>
    by_cases hk : x.1 = k
    · simp only [removeKey, if_pos hk] at h
      exact List.mem_cons_of_mem x (ih h)
    · simp only [removeKey, if_neg hk] at h
      rcases List.mem_cons.mp h with h1 | h2
      · exact h1 ▸ List.mem_cons_self x xs
      · exact List.mem_cons_of_mem x (ih h2)

theorem nullFree_alloc {h : BoxHeap} {v : VALUE} (hnf : nullFree h) (hv : v ≠ 0) :
    nullFree (rbb_value_alloc h v).1 := by
  intro e he
  rcases List.mem_cons.mp he with h1 | h2
  · rw [h1]
    exact hv
  · exact hnf e h2

theorem boxValue?_alloc {h : BoxHeap} {w : VALUE} {b : Nat} {v : VALUE}
    (hWF : h.WF) (hv : boxValue? h b = some v) :
    boxValue? (rbb_value_alloc h w).1 b = some v := by
  have hb : h.next ≠ b := fun hh =>
    Nat.ne_of_lt (hWF.1 (b, v) (assoc?_mem hv)) hh.symm
  simp only [rbb_value_alloc, boxValue?, assoc?, if_neg hb]
  exact hv

theorem free_eq {h : BoxHeap} {b : Nat} {h' : BoxHeap}
    (hf : rbb_value_free h b = some h') :
    h' = ⟨removeKey h.boxes b, h.next⟩ := by
  unfold rbb_value_free at hf
  by_cases hc : (assoc? h.boxes b).isSome
  · rw [if_pos hc] at hf
    injection hf with h1
    exact h1.symm
  · rw [if_neg hc] at hf
    simp at hf

theorem dup_eq {h : BoxHeap} {b : Nat} {h' : BoxHeap} {d : Nat}
    (hd : rbb_value_dup h b = some (h', d)) :
    ∃ w, boxValue? h b = some w ∧ (h', d) = rbb_value_alloc h w := by
  unfold rbb_value_dup at hd
  cases hv : boxValue? h b with
  | none => rw [hv] at hd; simp at hd
  | some w =>
    rw [hv] at hd
    injection hd with h1
    exact ⟨w, rfl, h1.symm⟩

/-- C3: allocate, duplicate, release the original: the duplicate's box still
holds the reference and the reference stays rooted; releasing the duplicate
afterwards succeeds and removes the remaining root registration, leaving the
root count exactly where it started. -/
theorem c3_dup_survives_free_of_original :
    ∀ (h : BoxHeap) (v : VALUE), h.WF →
      ∃ h2 d h3 h4,
        rbb_value_dup (rbb_value_alloc h v).1 (rbb_value_alloc h v).2 = some (h2, d) ∧
        rbb_value_free h2 (rbb_value_alloc h v).2 = some h3 ∧
        boxValue? h3 d = some v ∧
        0 < rootCount h3 v ∧
        rbb_value_free h3 d = some h4 ∧
        rootCount h4 v = rootCount h v ∧
        boxValue? h4 d = none := by
  intro h v hWF
  have hne : ∀ e ∈ h.boxes, e.1 ≠ h.next := fun e he => Nat.ne_of_lt (hWF.1 e he)
  have hne1 : ∀ e ∈ h.boxes, e.1 ≠ h.next + 1 :=
    fun e he => Nat.ne_of_lt (Nat.lt_succ_of_lt (hWF.1 e he))
  have hs : (h.next : Nat) + 1 ≠ h.next := Nat.succ_ne_self h.next
  refine ⟨⟨(h.next + 1, v) :: (h.next, v) :: h.boxes, h.next + 2⟩, h.next + 1,
    ⟨(h.next + 1, v) :: h.boxes, h.next + 2⟩, ⟨h.boxes, h.next + 2⟩,
    ?_, ?_, ?_, ?_, ?_, ?_, ?_⟩
  · simp [rbb_value_dup, rbb_value_alloc, boxValue?, assoc?]
  · simp [rbb_value_free, rbb_value_alloc, assoc?, removeKey, hs, removeKey_of_ne hne]
  · simp [boxValue?, assoc?]
  · show 0 < rootsIn ((h.next + 1, v) :: h.boxes) v
    simp [rootsIn]
  · simp [rbb_value_free, assoc?, removeKey, removeKey_of_ne hne1]
  · rfl
  · exact assoc?_eq_none hne1

/-- Witness for C3 starting from the empty heap with reference 5: the
duplicate keeps 5 live and rooted after the original is released, and
releasing the duplicate brings the root count back to zero. -/
theorem c3_dup_survives_free_of_original_witness :
    (⟨[], 0⟩ : BoxHeap).WF ∧
    (∃ h2 d h3 h4,
      rbb_value_dup (rbb_value_alloc ⟨[], 0⟩ 5).1 (rbb_value_alloc ⟨[], 0⟩ 5).2 =
        some (h2, d) ∧
      rbb_value_free h2 (rbb_value_alloc ⟨[], 0⟩ 5).2 = some h3 ∧
      boxValue? h3 d = some 5 ∧
      0 < rootCount h3 5 ∧
      rbb_value_free h3 d = some h4 ∧
      rootCount h4 5 = rootCount ⟨[], 0⟩ 5 ∧
      boxValue? h4 d = none) :=
  ⟨by decide, c3_dup_survives_free_of_original ⟨[], 0⟩ 5 (by decide)⟩

/-- C4: on a well-formed heap, no operation of the layer changes the
reference held inside an existing live box, and when every reference handed
to an allocation is non-null, the heap never holds a null reference. -/
theorem c4_box_reference_invariants :
    (∀ (h : BoxHeap) (v : VALUE), nullFree h → v ≠ 0 →
      nullFree (rbb_value_alloc h v).1) ∧
    (∀ (h : BoxHeap) (b : Nat) (h' : BoxHeap) (d : Nat), nullFree h →
      rbb_value_dup h b = some (h', d) → nullFree h') ∧
    (∀ (h : BoxHeap) (b : Nat) (h' : BoxHeap), nullFree h →
      rbb_value_free h b = some h' → nullFree h') ∧
    (∀ (h : BoxHeap) (w : VALUE) (b : Nat) (v : VALUE), h.WF →
      boxValue? h b = some v → boxValue? (rbb_value_alloc h w).1 b = some v) ∧
    (∀ (h : BoxHeap) (b' : Nat) (h' : BoxHeap) (d : Nat) (b : Nat) (v : VALUE), h.WF →
      rbb_value_dup h b' = some (h', d) → boxValue? h b = some v →
      boxValue? h' b = some v) ∧
    (∀ (h : BoxHeap) (b' : Nat) (h' : BoxHeap) (b : Nat) (v : VALUE),
      rbb_value_free h b' = some h' → b ≠ b' → boxValue? h b = some v →
      boxValue? h' b = some v) := by
  refine ⟨?_, ?_, ?_, ?_, ?_, ?_⟩
  · intro h v hnf hv
    exact nullFree_alloc hnf hv
  · intro h b h' d hnf hd
    obtain ⟨w, hw, heq⟩ := dup_eq hd
    have hw0 : w ≠ 0 := hnf (b, w) (assoc?_mem hw)
    have := nullFree_alloc hnf hw0 (v := w)
    rw [show h' = (rbb_value_alloc h w).1 from congrArg Prod.fst heq]
    exact this
  · intro h b h' hnf hf
    rw [free_eq hf]
    intro e he
    exact hnf e (removeKey_mem he)
  · intro h w b v hWF hv
    exact boxValue?_alloc hWF hv
  · intro h b' h' d b v hWF hd hv
    obtain ⟨w, hw, heq⟩ := dup_eq hd
    rw [show h' = (rbb_value_alloc h w).1 from congrArg Prod.fst heq]
    exact boxValue?_alloc hWF hv
  · intro h b' h' b v hf hne hv
    rw [free_eq hf]
    show assoc? (removeKey h.boxes b') b = some v
    rw [assoc?_removeKey_ne hne]
    exact hv

/-- Witness for C4 on the one-box heap holding reference 7 at address 0:
allocating 5 keeps the heap null-free and leaves box 0 holding 7. -/
theorem c4_box_reference_invariants_witness :
    nullFree (⟨[(0, 7)], 1⟩ : BoxHeap) ∧ (5 : VALUE) ≠ 0 ∧
    nullFree (rbb_value_alloc ⟨[(0, 7)], 1⟩ 5).1 ∧
    (⟨[(0, 7)], 1⟩ : BoxHeap).WF ∧ boxValue? ⟨[(0, 7)], 1⟩ 0 = some 7 ∧
    boxValue? (rbb_value_alloc ⟨[(0, 7)], 1⟩ 5).1 0 = some 7 := by
  have h4 := c4_box_reference_invariants
  refine ⟨by decide, by decide, ?_, by decide, by decide, ?_⟩
  · exact h4.1 ⟨[(0, 7)], 1⟩ 5 (by decide) (by decide)
  · exact h4.2.2.2.1 ⟨[(0, 7)], 1⟩ 5 0 7 (by decide) (by decide)

/-- C10: duplicating a live box never modifies it: the duplication succeeds,
the source box still holds its reference with its own root registration in
place (the root count merely gains the duplicate's independent
registration), the duplicate sits at a different address, and the source box
can still be released afterwards without touching the duplicate. -/
theorem c10_dup_leaves_source_unchanged :
    ∀ (h : BoxHeap) (b : Nat) (v : VALUE), h.WF → boxValue? h b = some v →
      ∃ h' d,
        rbb_value_dup h b = some (h', d) ∧
        boxValue? h' b = some v ∧
        d ≠ b ∧
        boxValue? h' d = some v ∧
        rootCount h' v = rootCount h v + 1 ∧
        ∃ h'', rbb_value_free h' b = some h'' ∧ boxValue? h'' d = some v := by
  intro h b v hWF hv
  have hblt : b < h.next := hWF.1 (b, v) (assoc?_mem hv)
  have hnb : h.next ≠ b := fun hh => Nat.ne_of_lt hblt hh.symm
  have hs : assoc? ((h.next, v) :: h.boxes) b = some v := by
    simp only [assoc?, if_neg hnb]
    exact hv
  refine ⟨⟨(h.next, v) :: h.boxes, h.next + 1⟩, h.next, ?_, ?_, ?_, ?_, ?_, ?_⟩
  · simp [rbb_value_dup, hv, rbb_value_alloc]
  · exact hs
  · exact hnb
  · simp [boxValue?, assoc?]
  · show rootsIn ((h.next, v) :: h.boxes) v = rootCount h v + 1
    simp only [rootsIn, if_pos rfl]
    show 1 + rootsIn h.boxes v = rootsIn h.boxes v + 1
    omega
  · refine ⟨⟨(h.next, v) :: removeKey h.boxes b, h.next + 1⟩, ?_, ?_⟩
    · simp [rbb_value_free, hs, removeKey, hnb]
    · simp [boxValue?, assoc?]

/-- Witness for C10 on the one-box heap holding reference 7 at address 0:
duplication leaves box 0 holding 7, adds an independent registration, and
box 0 can still be released. -/
theorem c10_dup_leaves_source_unchanged_witness :
    (⟨[(0, 7)], 1⟩ : BoxHeap).WF ∧ boxValue? ⟨[(0, 7)], 1⟩ 0 = some 7 ∧
    (∃ h' d,
      rbb_value_dup ⟨[(0, 7)], 1⟩ 0 = some (h', d) ∧
      boxValue? h' 0 = some 7 ∧
      d ≠ 0 ∧
      boxValue? h' d = some 7 ∧
      rootCount h' 7 = rootCount ⟨[(0, 7)], 1⟩ 7 + 1 ∧
      ∃ h'', rbb_value_free h' 0 = some h'' ∧ boxValue? h'' d = some 7) :=
  ⟨by decide, by decide,
    c10_dup_leaves_source_unchanged ⟨[(0, 7)], 1⟩ 0 7 (by decide) (by decide)⟩

/-- C8: the five auxiliary operations are pure reads: stepping any of them
over the adapter state leaves the intern table and the box heap untouched,
the call returns directly with the value of the corresponding read and no
non-local jump, and no status flag is ever written. -/
theorem c8_aux_ops_pure_reads :
    ∀ (st : AdapterState) (tab : ObjTab) (info : RubyInfo) (op : AuxOp),
      stepAux st tab info op = (st, .ret (auxEval tab info op) none) ∧
      auxCall tab info op ≠ .escape ∧
      (auxCall tab info op).slotAfter = none := by
  intro st tab info op
  exact ⟨rfl, by simp [auxCall], rfl⟩

/-- C9: the version and description queries read only the process-run
constants, so any two calls in a run — whatever happened to the object table
in between — return identical byte strings, and on a well-formed run both
strings are non-empty and null-free. -/
theorem c9_env_queries_deterministic :
    ∀ (info : RubyInfo) (t1 t2 : ObjTab),
      auxEval t1 info .rubyVersion = auxEval t2 info .rubyVersion ∧
      auxEval t1 info .rubyDescription = auxEval t2 info .rubyDescription ∧
      (info.WF →
        rbb_ruby_version info ≠ [] ∧ 0 ∉ rbb_ruby_version info ∧
        rbb_ruby_description info ≠ [] ∧ 0 ∉ rbb_ruby_description info) := by
  intro info t1 t2
  exact ⟨rfl, rfl, fun hWF => ⟨hWF.1, hWF.2.1, hWF.2.2.1, hWF.2.2.2⟩⟩

/-- Witness for C9 at a concrete two-byte run description: the queries agree
across different object tables and both strings are non-empty and
null-free. -/
theorem c9_env_queries_deterministic_witness :
    (auxEval ⟨[(1, .robj 2)]⟩ ⟨[50, 46], [114, 117]⟩ .rubyVersion =
      auxEval ⟨[]⟩ ⟨[50, 46], [114, 117]⟩ .rubyVersion) ∧
    rbb_ruby_version ⟨[50, 46], [114, 117]⟩ ≠ [] ∧
    0 ∉ rbb_ruby_version ⟨[50, 46], [114, 117]⟩ ∧
    rbb_ruby_description ⟨[50, 46], [114, 117]⟩ ≠ [] ∧
    0 ∉ rbb_ruby_description ⟨[50, 46], [114, 117]⟩ := by
  have h := c9_env_queries_deterministic ⟨[50, 46], [114, 117]⟩ ⟨[(1, .robj 2)]⟩ ⟨[]⟩
  exact ⟨h.1, h.2.2 (by decide)⟩

end RbbHelpers
